import Mathlib

/-!
# Verification of the dotENV envelope-encryption and lockout core

Shallow embedding of `src/lib/crypto.ts` (Base64 helpers, key derivation,
AES-GCM envelope encryption/decryption), the password-verification logic of
the project page (`handleUnlock`), the `MasterPasswordModal` submit guard,
and the password-lockout utility (`isLockedOut`, `recordFailedAttempt`,
`getRemainingAttempts`, `clearLockout`).

Byte strings are modelled as `List Nat` with entries below 256.  The
platform primitives (WebCrypto PBKDF2/AES-GCM, `btoa`/`atob`, `localStorage`,
`Date.now`) are not part of the repository; `btoa`/`atob` are embedded
faithfully to the WHATWG forgiving-base64 algorithm, while PBKDF2 and
AES-GCM are modelled from the spec as an ideal deterministic KDF and an
ideal AEAD (decryption succeeds exactly for the matching key and nonce on an
untampered ciphertext).  Randomness (`crypto.getRandomValues`) and the
current time (`Date.now`) are passed as explicit parameters.
-/

set_option maxRecDepth 10000

namespace DotEnv

/-! ## Base64 (the `btoa` / `atob` platform codec and the wrappers
`bufferToBase64` / `base64ToBuffer` from `src/lib/crypto.ts`) -/

/-- Character code of the base64 alphabet entry for a 6-bit group `n < 64`. -/
def b64EncChar (n : Nat) : Nat :=
  if n < 26 then 65 + n
  else if n < 52 then 97 + (n - 26)
  else if n < 62 then 48 + (n - 52)
  else if n = 62 then 43
  else 47

/-- Inverse of `b64EncChar`: decode one base64 character code, `none` for a
character outside the alphabet (including the padding character `=` = 61). -/
def b64DecChar (c : Nat) : Option Nat :=
  if 65 ≤ c ∧ c ≤ 90 then some (c - 65)
  else if 97 ≤ c ∧ c ≤ 122 then some (c - 97 + 26)
  else if 48 ≤ c ∧ c ≤ 57 then some (c - 48 + 52)
  else if c = 43 then some 62
  else if c = 47 then some 63
  else none

/-- `bufferToBase64` from `src/lib/crypto.ts`: builds a binary string from the
bytes and applies `btoa`.  Modelled as the base64 encoding (with padding) of a
byte list; the result is a list of character codes. -/
def bufferToBase64 : List Nat → List Nat
  | [] => []
  | [a] => [b64EncChar (a / 4), b64EncChar (a % 4 * 16), 61, 61]
  | [a, b] => [b64EncChar (a / 4), b64EncChar (a % 4 * 16 + b / 16),
      b64EncChar (b % 16 * 4), 61]
  | a :: b :: c :: rest =>
      b64EncChar (a / 4) :: b64EncChar (a % 4 * 16 + b / 16) ::
      b64EncChar (b % 16 * 4 + c / 64) :: b64EncChar (c % 64) ::
      bufferToBase64 rest

/-- Decode a final base64 group of two characters into one byte. -/
def decode2 (w x : Nat) : Option (List Nat) :=
  match b64DecChar w, b64DecChar x with
  | some a, some b => some [a * 4 + b / 16]
  | _, _ => none

/-- Decode a final base64 group of three characters into two bytes. -/
def decode3 (w x y : Nat) : Option (List Nat) :=
  match b64DecChar w, b64DecChar x, b64DecChar y with
  | some a, some b, some c => some [a * 4 + b / 16, b % 16 * 16 + c / 4]
  | _, _, _ => none

/-- The group-decoding core of `atob` (steps 2–4 of WHATWG forgiving-base64,
applied after whitespace stripping): trailing `=` padding is accepted (and
leftover bits are discarded), a length ≡ 1 (mod 4) or a character outside
the alphabet is an error (`InvalidCharacterError`), modelled as `none`. -/
def decodeB64Chars : List Nat → Option (List Nat)
  | [] => some []
  | [_] => none
  | [w, x] => decode2 w x
  | [w, x, y] => decode3 w x y
  | w :: x :: y :: z :: rest =>
      if z = 61 then
        if rest.isEmpty then
          if y = 61 then decode2 w x else decode3 w x y
        else none
      else
        match b64DecChar w, b64DecChar x, b64DecChar y, b64DecChar z,
            decodeB64Chars rest with
        | some a, some b, some c, some d, some tail =>
            some ((a * 4 + b / 16) :: (b % 16 * 16 + c / 4) :: (c % 4 * 64 + d) :: tail)
        | _, _, _, _, _ => none

/-- ASCII whitespace (TAB, LF, FF, CR, SPACE), which `atob` strips before
decoding (step 1 of WHATWG forgiving-base64). -/
def isAsciiWhitespace (c : Nat) : Bool :=
  c == 9 || c == 10 || c == 12 || c == 13 || c == 32

/-- `base64ToBuffer` from `src/lib/crypto.ts`: applies `atob` and reads the
character codes back into bytes.  `atob` follows WHATWG forgiving-base64:
ASCII whitespace is stripped first, then the stream is decoded in groups of
four characters. -/
def base64ToBuffer (l : List Nat) : Option (List Nat) :=
  decodeB64Chars (l.filter fun c => !isAsciiWhitespace c)

theorem b64DecChar_b64EncChar : ∀ n < 64, b64DecChar (b64EncChar n) = some n := by
  decide

theorem b64EncChar_ne_61 : ∀ n < 64, b64EncChar n ≠ 61 := by
  decide

theorem b64EncChar_lt_256 : ∀ n < 64, b64EncChar n < 256 := by
  decide

/-- Decoding the whitespace-free encoding of any byte list returns exactly
that byte list. -/
theorem decodeB64Chars_bufferToBase64 (l : List Nat) (h : ∀ b ∈ l, b < 256) :
    decodeB64Chars (bufferToBase64 l) = some l := by
  induction l using bufferToBase64.induct with
  | case1 =>
      simp [bufferToBase64, decodeB64Chars]
  | case2 a =>
      have ha : a < 256 := h a (by simp)
      have h1 : a / 4 < 64 := by omega
      have h2 : a % 4 * 16 < 64 := by omega
      simp only [bufferToBase64, decodeB64Chars, List.isEmpty_nil, if_true, decode2,
        b64DecChar_b64EncChar _ h1, b64DecChar_b64EncChar _ h2,
        Option.some.injEq, List.cons.injEq, and_true]
      omega
  | case3 a b =>
      have ha : a < 256 := h a (by simp)
      have hb : b < 256 := h b (by simp)
      have h1 : a / 4 < 64 := by omega
      have h2 : a % 4 * 16 + b / 16 < 64 := by omega
      have h3 : b % 16 * 4 < 64 := by omega
      simp only [bufferToBase64, decodeB64Chars, List.isEmpty_nil, if_true,
        b64EncChar_ne_61 _ h3, if_false, decode3,
        b64DecChar_b64EncChar _ h1, b64DecChar_b64EncChar _ h2,
        b64DecChar_b64EncChar _ h3,
        Option.some.injEq, List.cons.injEq, and_true]
      omega
  | case4 a b c rest ih =>
      have ha : a < 256 := h a (by simp)
      have hb : b < 256 := h b (by simp)
      have hc : c < 256 := h c (by simp)
      have h1 : a / 4 < 64 := by omega
      have h2 : a % 4 * 16 + b / 16 < 64 := by omega
      have h3 : b % 16 * 4 + c / 64 < 64 := by omega
      have h4 : c % 64 < 64 := by omega
      have hrest : ∀ x ∈ rest, x < 256 := by
        intro x hx
        exact h x (by simp [hx])
      have ihr := ih hrest
      cases hr : bufferToBase64 rest with
      | nil =>
          rw [hr] at ihr
          have hrnil : rest = [] := by
            simpa [decodeB64Chars] using ihr.symm
          subst hrnil
          simp only [bufferToBase64, decodeB64Chars, List.isEmpty_nil,
            b64EncChar_ne_61 _ h4, if_false,
            b64DecChar_b64EncChar _ h1, b64DecChar_b64EncChar _ h2,
            b64DecChar_b64EncChar _ h3, b64DecChar_b64EncChar _ h4,
            Option.some.injEq, List.cons.injEq, and_true]
          omega
      | cons hd tl =>
          rw [hr] at ihr
          simp only [bufferToBase64, hr, decodeB64Chars,
            b64EncChar_ne_61 _ h4, if_false,
            b64DecChar_b64EncChar _ h1, b64DecChar_b64EncChar _ h2,
            b64DecChar_b64EncChar _ h3, b64DecChar_b64EncChar _ h4, ihr,
            Option.some.injEq, List.cons.injEq, and_true, true_and]
          omega

theorem b64EncChar_ge_43 (n : Nat) : 43 ≤ b64EncChar n := by
  unfold b64EncChar
  split_ifs <;> omega

theorem mem_bufferToBase64_ge_43 (l : List Nat) : ∀ c ∈ bufferToBase64 l, 43 ≤ c := by
  induction l using bufferToBase64.induct with
  | case1 => simp [bufferToBase64]
  | case2 a =>
      intro c hc
      simp only [bufferToBase64, List.mem_cons, List.not_mem_nil, or_false] at hc
      rcases hc with rfl | rfl | rfl | rfl
      · exact b64EncChar_ge_43 _
      · exact b64EncChar_ge_43 _
      · omega
      · omega
  | case3 a b =>
      intro c hc
      simp only [bufferToBase64, List.mem_cons, List.not_mem_nil, or_false] at hc
      rcases hc with rfl | rfl | rfl | rfl
      · exact b64EncChar_ge_43 _
      · exact b64EncChar_ge_43 _
      · exact b64EncChar_ge_43 _
      · omega
  | case4 a b c rest ih =>
      intro x hx
      simp only [bufferToBase64, List.mem_cons] at hx
      rcases hx with rfl | rfl | rfl | rfl | hx
      · exact b64EncChar_ge_43 _
      · exact b64EncChar_ge_43 _
      · exact b64EncChar_ge_43 _
      · exact b64EncChar_ge_43 _
      · exact ih x hx

/-- The output of `bufferToBase64` contains no ASCII whitespace, so `atob`'s
whitespace stripping is the identity on it. -/
theorem filter_bufferToBase64 (l : List Nat) :
    (bufferToBase64 l).filter (fun c => !isAsciiWhitespace c) = bufferToBase64 l := by
  apply List.filter_eq_self.mpr
  intro c hc
  have h43 := mem_bufferToBase64_ge_43 l c hc
  simp only [isAsciiWhitespace, Bool.not_eq_true', Bool.or_eq_false_iff, beq_eq_false_iff_ne,
    ne_eq]
  omega

/-- The Base64 codec of `src/lib/crypto.ts` round-trips: decoding the encoding
of any byte list returns exactly that byte list. -/
theorem base64ToBuffer_bufferToBase64 (l : List Nat) (h : ∀ b ∈ l, b < 256) :
    base64ToBuffer (bufferToBase64 l) = some l := by
  rw [base64ToBuffer, filter_bufferToBase64]
  exact decodeB64Chars_bufferToBase64 l h

/-- `bufferToBase64` is injective on byte lists. -/
theorem bufferToBase64_injective (l1 l2 : List Nat) (h1 : ∀ b ∈ l1, b < 256)
    (h2 : ∀ b ∈ l2, b < 256) (he : bufferToBase64 l1 = bufferToBase64 l2) :
    l1 = l2 := by
  have r1 := base64ToBuffer_bufferToBase64 l1 h1
  have r2 := base64ToBuffer_bufferToBase64 l2 h2
  rw [he, r2] at r1
  exact (Option.some.injEq _ _ ▸ r1).symm

/-! ## Key derivation and AEAD

Modelled from the spec: `deriveKey` (§4.1) is a deterministic slow KDF
(PBKDF2, 100,000 iterations of SHA-256) — modelled as an ideal injective
function of password and salt, so a key is identified with the
password/salt pair that produced it.  The AES-256-GCM AEAD (§4.2) is
modelled as an ideal authenticated cipher: the ciphertext determines the
key, nonce and plaintext that produced it, carries an authentication tag,
and decryption succeeds exactly when the key and nonce match and the
ciphertext is untampered; any single-byte change is detected by the tag. -/

/-- An AES-256-GCM key derived by PBKDF2, identified by the password and
salt it was derived from (ideal KDF: distinct inputs give distinct keys). -/
structure DerivedKey where
  password : List Nat
  salt : List Nat
deriving DecidableEq

/-- `deriveKey` from `src/lib/crypto.ts`, in the ideal-KDF model. -/
def deriveKey (masterPassword salt : List Nat) : DerivedKey :=
  ⟨masterPassword, salt⟩

/-- Self-delimiting byte encoding of a length: `n / 255` bytes `255`
followed by `n % 255`.  Every byte is below 256. -/
def encLen (n : Nat) : List Nat :=
  List.replicate (n / 255) 255 ++ [n % 255]

/-- Inverse of `encLen`: read a length from the front of a byte stream. -/
def decodeLen : List Nat → Option (Nat × List Nat)
  | [] => none
  | b :: rest =>
      if b = 255 then
        match decodeLen rest with
        | some (m, r) => some (m + 255, r)
        | none => none
      else some (b, rest)

/-- Read `k` bytes from the front of a stream. -/
def parseBytes : Nat → List Nat → Option (List Nat × List Nat)
  | 0, l => some ([], l)
  | _ + 1, [] => none
  | k + 1, b :: l =>
      match parseBytes k l with
      | some (xs, r) => some (b :: xs, r)
      | none => none

/-- Byte encoding of the data authenticated by the ideal AEAD: the key, the
nonce and the plaintext, length-prefixed. -/
def serializeAead (key : DerivedKey) (nonce pt : List Nat) : List Nat :=
  encLen key.password.length ++ key.password ++
  encLen key.salt.length ++ key.salt ++
  encLen nonce.length ++ nonce ++ pt

/-- Inverse of `serializeAead`. -/
def deserializeAead (l : List Nat) : Option (DerivedKey × List Nat × List Nat) :=
  match decodeLen l with
  | none => none
  | some (pl, r1) =>
    match parseBytes pl r1 with
    | none => none
    | some (pw, r2) =>
      match decodeLen r2 with
      | none => none
      | some (sl, r3) =>
        match parseBytes sl r3 with
        | none => none
        | some (salt, r4) =>
          match decodeLen r4 with
          | none => none
          | some (nl, r5) =>
            match parseBytes nl r5 with
            | none => none
            | some (nonce, pt) => some (⟨pw, salt⟩, nonce, pt)

/-- Ideal AES-GCM encryption (`crypto.subtle.encrypt`): the ciphertext is the
serialized authenticated data followed by a one-byte authentication tag
(a mod-256 checksum, which detects any single-byte substitution). -/
def aesGcmEncrypt (key : DerivedKey) (nonce pt : List Nat) : List Nat :=
  serializeAead key nonce pt ++ [(serializeAead key nonce pt).sum % 256]

/-- Ideal AES-GCM decryption (`crypto.subtle.decrypt`): verifies the tag and
that the key and nonce match; `none` models the `OperationError` thrown on
an authentication failure. -/
def aesGcmDecrypt (key : DerivedKey) (nonce ct : List Nat) : Option (List Nat) :=
  match ct.getLast? with
  | none => none
  | some tag =>
    if tag = ct.dropLast.sum % 256 then
      match deserializeAead ct.dropLast with
      | some (k, n, pt) => if k = key ∧ n = nonce then some pt else none
      | none => none
    else none

theorem decodeLen_encLen (n : Nat) (rest : List Nat) :
    decodeLen (encLen n ++ rest) = some (n, rest) := by
  have key : ∀ k m rest, m < 255 →
      decodeLen (List.replicate k 255 ++ [m] ++ rest) = some (255 * k + m, rest) := by
    intro k
    induction k with
    | zero =>
        intro m rest hm
        simp [decodeLen, Nat.ne_of_lt hm]
    | succ k ih =>
        intro m rest hm
        simp only [List.replicate_succ, List.cons_append, decodeLen, if_true,
          List.append_eq, ih m rest hm, Option.some.injEq, Prod.mk.injEq, and_true]
        omega
  have h := key (n / 255) (n % 255) rest (Nat.mod_lt _ (by omega))
  simpa [encLen, Nat.div_add_mod, (by omega : 255 * (n / 255) + n % 255 = n)] using h

theorem parseBytes_append (xs rest : List Nat) :
    parseBytes xs.length (xs ++ rest) = some (xs, rest) := by
  induction xs with
  | nil => simp [parseBytes]
  | cons b l ih => simp [parseBytes, ih]

theorem deserializeAead_serializeAead (key : DerivedKey) (nonce pt : List Nat) :
    deserializeAead (serializeAead key nonce pt) = some (key, nonce, pt) := by
  simp only [serializeAead, deserializeAead, List.append_assoc,
    decodeLen_encLen, parseBytes_append]

theorem aesGcmDecrypt_aesGcmEncrypt (key : DerivedKey) (nonce pt : List Nat) :
    aesGcmDecrypt key nonce (aesGcmEncrypt key nonce pt) = some pt := by
  simp [aesGcmEncrypt, aesGcmDecrypt, List.getLast?_concat, List.dropLast_concat,
    deserializeAead_serializeAead]

/-- Decryption with a non-matching key or nonce fails (ideal AEAD). -/
theorem aesGcmDecrypt_wrong (key key' : DerivedKey) (nonce nonce' pt : List Nat)
    (h : key' ≠ key ∨ nonce' ≠ nonce) :
    aesGcmDecrypt key' nonce' (aesGcmEncrypt key nonce pt) = none := by
  have hcond : ¬(key = key' ∧ nonce = nonce') := by
    rcases h with h | h
    · exact fun hc => h hc.1.symm
    · exact fun hc => h hc.2.symm
  simp [aesGcmEncrypt, aesGcmDecrypt, List.getLast?_concat, List.dropLast_concat,
    deserializeAead_serializeAead, hcond]

theorem getD_mem (l : List Nat) (i : Nat) (h : i < l.length) : l.getD i 0 ∈ l := by
  induction l generalizing i with
  | nil => simp at h
  | cons b t ih =>
      cases i with
      | zero => simp [List.getD]
      | succ j =>
          have := ih j (by simpa using h)
          simp only [List.getD_cons_succ]
          exact List.mem_cons_of_mem _ this

theorem sum_set (l : List Nat) (i v : Nat) (h : i < l.length) :
    (l.set i v).sum + l.getD i 0 = l.sum + v := by
  induction l generalizing i with
  | nil => simp at h
  | cons b t ih =>
      cases i with
      | zero => simp [List.getD, List.set]; omega
      | succ j =>
          have := ih j (by simpa using h)
          simp only [List.set, List.sum_cons, List.getD_cons_succ]
          omega

theorem set_append_left (l l' : List Nat) (i v : Nat) (h : i < l.length) :
    (l ++ l').set i v = l.set i v ++ l' := by
  induction l generalizing i with
  | nil => simp at h
  | cons b t ih =>
      cases i with
      | zero => simp [List.set]
      | succ j =>
          have := ih j (by simpa using h)
          simp [List.set, this]

theorem set_append_end (l : List Nat) (t v : Nat) :
    (l ++ [t]).set l.length v = l ++ [v] := by
  induction l with
  | nil => simp [List.set]
  | cons b r ih => simp [List.set, ih]

theorem getD_append_left (l l' : List Nat) (i : Nat) (h : i < l.length) :
    (l ++ l').getD i 0 = l.getD i 0 := by
  induction l generalizing i with
  | nil => simp at h
  | cons b t ih =>
      cases i with
      | zero => simp [List.getD]
      | succ j =>
          have := ih j (by simpa using h)
          simpa [List.getD_cons_succ] using this

theorem getD_append_end (l : List Nat) (t : Nat) :
    (l ++ [t]).getD l.length 0 = t := by
  induction l with
  | nil => simp [List.getD]
  | cons b r ih => simp [List.getD_cons_succ, ih]

theorem encLen_bytes (n : Nat) : ∀ b ∈ encLen n, b < 256 := by
  intro b hb
  simp only [encLen, List.mem_append, List.mem_replicate, List.mem_singleton] at hb
  rcases hb with ⟨_, rfl⟩ | rfl
  · omega
  · omega

theorem serializeAead_bytes (key : DerivedKey) (nonce pt : List Nat)
    (h1 : ∀ b ∈ key.password, b < 256) (h2 : ∀ b ∈ key.salt, b < 256)
    (h3 : ∀ b ∈ nonce, b < 256) (h4 : ∀ b ∈ pt, b < 256) :
    ∀ b ∈ serializeAead key nonce pt, b < 256 := by
  intro b hb
  simp only [serializeAead, List.mem_append] at hb
  rcases hb with ((((((hb | hb) | hb) | hb) | hb) | hb) | hb) <;>
    first
      | exact encLen_bytes _ b hb
      | exact h1 b hb
      | exact h2 b hb
      | exact h3 b hb
      | exact h4 b hb

theorem aesGcmEncrypt_bytes (key : DerivedKey) (nonce pt : List Nat)
    (h1 : ∀ b ∈ key.password, b < 256) (h2 : ∀ b ∈ key.salt, b < 256)
    (h3 : ∀ b ∈ nonce, b < 256) (h4 : ∀ b ∈ pt, b < 256) :
    ∀ b ∈ aesGcmEncrypt key nonce pt, b < 256 := by
  intro b hb
  simp only [aesGcmEncrypt, List.mem_append, List.mem_singleton] at hb
  rcases hb with hb | rfl
  · exact serializeAead_bytes key nonce pt h1 h2 h3 h4 b hb
  · omega

/-- Tamper detection (ideal AEAD): replacing any single byte of a ciphertext
produced by `aesGcmEncrypt` with a different byte value makes decryption fail
for every key and nonce. -/
theorem aesGcmDecrypt_flip (key key' : DerivedKey) (nonce nonce' pt : List Nat)
    (hbytes : ∀ b ∈ serializeAead key nonce pt, b < 256)
    (i v : Nat) (hi : i < (aesGcmEncrypt key nonce pt).length) (hv : v < 256)
    (hne : v ≠ (aesGcmEncrypt key nonce pt).getD i 0) :
    aesGcmDecrypt key' nonce' ((aesGcmEncrypt key nonce pt).set i v) = none := by
  set p := serializeAead key nonce pt with hp
  have hlen : (aesGcmEncrypt key nonce pt).length = p.length + 1 := by
    simp [aesGcmEncrypt, hp]
  rcases Nat.lt_or_ge i p.length with hcase | hcase
  · -- the flipped byte is in the authenticated payload
    have hset : (aesGcmEncrypt key nonce pt).set i v = p.set i v ++ [p.sum % 256] := by
      rw [aesGcmEncrypt, ← hp, set_append_left _ _ _ _ hcase]
    have hold : (aesGcmEncrypt key nonce pt).getD i 0 = p.getD i 0 := by
      rw [aesGcmEncrypt, ← hp, getD_append_left _ _ _ hcase]
    have holdlt : p.getD i 0 < 256 := hbytes _ (getD_mem p i hcase)
    have hsum := sum_set p i v hcase
    have htag : ¬(p.sum % 256 = (p.set i v).sum % 256) := by
      rw [hold] at hne
      omega
    rw [hset, aesGcmDecrypt]
    simp [List.getLast?_concat, List.dropLast_concat, htag]
  · -- the flipped byte is the authentication tag
    have hieq : i = p.length := by omega
    subst hieq
    have hset : (aesGcmEncrypt key nonce pt).set p.length v = p ++ [v] := by
      rw [aesGcmEncrypt, ← hp, set_append_end]
    have hold : (aesGcmEncrypt key nonce pt).getD p.length 0 = p.sum % 256 := by
      rw [aesGcmEncrypt, ← hp, getD_append_end]
    have htag : ¬(v = p.sum % 256) := by rw [hold] at hne; exact hne
    rw [hset, aesGcmDecrypt]
    simp [List.getLast?_concat, List.dropLast_concat, htag]

/-! ## The envelope layer: `encrypt` / `decrypt` from `src/lib/crypto.ts` -/

/-- Result of an encryption operation (`EncryptedData` in
`src/lib/crypto.ts`): three Base64 strings, modelled as lists of character
codes. -/
structure EncryptedData where
  ciphertext : List Nat
  iv : List Nat
  salt : List Nat
deriving DecidableEq

/-- `encrypt` from `src/lib/crypto.ts`.  The 16-byte salt from
`generateSalt()` and the 12-byte IV from `generateIV()` are the randomness
sampled by `crypto.getRandomValues`, passed here as explicit parameters.
The plaintext and password are the UTF-8 byte sequences produced by
`TextEncoder`. -/
def encrypt (plaintext masterPassword salt iv : List Nat) : EncryptedData :=
  { ciphertext := bufferToBase64 (aesGcmEncrypt (deriveKey masterPassword salt) iv plaintext)
  , iv := bufferToBase64 iv
  , salt := bufferToBase64 salt }

/-- How a `decrypt` call can fail: `invalidCharacter` is the
`InvalidCharacterError` thrown by `atob` on malformed Base64 (raised before
the `try` block, hence not converted), `decryptionFailed` is the
`Error('Incorrect master password. Unable to decrypt.')` thrown by the
`catch` block when AES-GCM authentication fails. -/
inductive DecryptError where
  | invalidCharacter
  | decryptionFailed
deriving DecidableEq

/-- `decrypt` from `src/lib/crypto.ts`: Base64-decodes salt, IV and
ciphertext (in that order, outside the `try`), derives the key, and performs
AES-GCM decryption inside the `try`; any failure there is mapped to the
single opaque `decryptionFailed` error. -/
def decrypt (ciphertext iv salt masterPassword : List Nat) :
    Except DecryptError (List Nat) :=
  match base64ToBuffer salt with
  | none => .error .invalidCharacter
  | some saltBuffer =>
    match base64ToBuffer iv with
    | none => .error .invalidCharacter
    | some ivBuffer =>
      match base64ToBuffer ciphertext with
      | none => .error .invalidCharacter
      | some ctBuffer =>
        match aesGcmDecrypt (deriveKey masterPassword saltBuffer) ivBuffer ctBuffer with
        | some pt => .ok pt
        | none => .error .decryptionFailed

/-! ## Password verification (inline in the project page's `handleUnlock`
and in `CreateProjectModal`) -/

/-- `VERIFICATION_STRING = '__dotenv_verify__'` as UTF-8 bytes. -/
def VERIFICATION_STRING : List Nat :=
  [95, 95, 100, 111, 116, 101, 110, 118, 95, 118, 101, 114, 105, 102, 121, 95, 95]

/-- `CreateProjectModal.handleSubmit` creates the verification record by
`encrypt(VERIFICATION_STRING, masterPassword)` (stored as
`mp_verify` / `mp_iv` / `mp_salt`). -/
def createVerification (masterPassword salt iv : List Nat) : EncryptedData :=
  encrypt VERIFICATION_STRING masterPassword salt iv

/-- The verification check inside `handleUnlock`'s `try` block: decrypt the
stored record with the candidate password and compare the result with
`VERIFICATION_STRING`; every failure path (the `catch`) yields `false`. -/
def verify (record : EncryptedData) (candidate : List Nat) : Bool :=
  match decrypt record.ciphertext record.iv record.salt candidate with
  | .ok pt => if pt = VERIFICATION_STRING then true else false
  | .error _ => false

/-! ## The password-lockout utility

Per-project state persisted in `localStorage`.  The stored record for one
project is modelled by `Store`: either a readable `LockoutState`, an absent
entry, or a read failure (`localStorage.getItem` throwing or `JSON.parse`
failing on unreadable data).  `Date.now()` is the explicit `now` parameter
(epoch milliseconds) and `writeOk` says whether `localStorage` writes
succeed (`saveLockoutState` / `removeItem` swallow their exceptions, leaving
the stored contents unchanged). -/

def MAX_ATTEMPTS : Nat := 3

def LOCKOUT_DURATION_MS : Nat := 3 * 60 * 60 * 1000

/-- `LockoutState` from the lockout utility: `lockedUntil` is epoch ms or
`null` (`none`). -/
structure LockoutState where
  attempts : Nat
  lockedUntil : Option Nat
deriving DecidableEq

/-- The `localStorage` entry backing one project's lockout state. -/
inductive Store where
  | value (st : LockoutState)
  | absent
  | failure
deriving DecidableEq

/-- `getLockoutState`: reads and parses the stored record, returning `null`
when the entry is absent or when reading/parsing throws (the `catch`). -/
def getLockoutState : Store → Option LockoutState
  | .value st => some st
  | .absent => none
  | .failure => none

/-- `saveLockoutState`: persists the state; a storage exception is swallowed
and leaves the stored contents unchanged. -/
def saveLockoutState (writeOk : Bool) (old : Store) (st : LockoutState) : Store :=
  if writeOk then .value st else old

/-- `clearLockout`: removes the stored record; a storage exception is
swallowed. -/
def clearLockout (writeOk : Bool) (old : Store) : Store :=
  if writeOk then .absent else old

/-- `isLockedOut`: returns `{locked, remainingMs}` and the stored record
afterwards.  A falsy `lockedUntil` (absent record, `null`, or `0`) reports
not locked; an expired lockout is cleared lazily.  `remaining <= 0` in the
source is `lockedUntil ≤ now` here. -/
def isLockedOut (now : Nat) (writeOk : Bool) (s : Store) : (Bool × Nat) × Store :=
  match getLockoutState s with
  | none => ((false, 0), s)
  | some st =>
    match st.lockedUntil with
    | none => ((false, 0), s)
    | some lu =>
      if lu = 0 then ((false, 0), s)
      else if lu ≤ now then ((false, 0), clearLockout writeOk s)
      else ((true, lu - now), s)

/-- `recordFailedAttempt`: returns `{attempts, locked}` and the stored
record afterwards.  An expired previous lockout (truthy `lockedUntil ≤ now`)
resets the count first; reaching `MAX_ATTEMPTS` sets the lockout timer. -/
def recordFailedAttempt (now : Nat) (writeOk : Bool) (s : Store) : (Nat × Bool) × Store :=
  let current := (getLockoutState s).getD (LockoutState.mk 0 none)
  let current : LockoutState :=
    match current.lockedUntil with
    | some lu => if lu ≠ 0 ∧ lu ≤ now then LockoutState.mk 0 none else current
    | none => current
  let attempts := current.attempts + 1
  let lockedUntil :=
    if attempts ≥ MAX_ATTEMPTS then some (now + LOCKOUT_DURATION_MS)
    else current.lockedUntil
  ((attempts, decide (attempts ≥ MAX_ATTEMPTS)),
    saveLockoutState writeOk s (LockoutState.mk attempts lockedUntil))

/-- `getRemainingAttempts`: `MAX_ATTEMPTS` for an absent/unreadable or
expired record, otherwise `max 0 (MAX_ATTEMPTS - attempts)` (which is the
truncated natural subtraction). -/
def getRemainingAttempts (now : Nat) (s : Store) : Nat :=
  match getLockoutState s with
  | none => MAX_ATTEMPTS
  | some st =>
    match st.lockedUntil with
    | some lu => if lu ≠ 0 ∧ lu ≤ now then MAX_ATTEMPTS else MAX_ATTEMPTS - st.attempts
    | none => MAX_ATTEMPTS - st.attempts

/-- The `lockedUntil` field visible in the stored record, if any. -/
def lockedUntilOf (s : Store) : Option Nat :=
  match getLockoutState s with
  | some st => st.lockedUntil
  | none => none

/-! ## The unlock flow (`handleUnlock` in the project page,
`handleSubmit` in `MasterPasswordModal`) -/

/-- The fields of a stored project relevant to unlocking: the verification
envelope columns (`mp_verify` may be a missing/`null` column on legacy
projects). -/
structure Project where
  mp_verify : Option (List Nat)
  mp_iv : List Nat
  mp_salt : List Nat

/-- Outcome of `handleUnlock`: whether the password was accepted
(`setMasterPassword` reached), whether `decrypt` was invoked, and the
lockout store afterwards. -/
structure UnlockOutcome where
  verified : Bool
  decryptCalled : Bool
  store : Store
deriving DecidableEq

/-- `handleUnlock` from the project page: a falsy `project.mp_verify`
(absent column or empty string — legacy project) accepts the password
immediately, calling `clearLockout` and never `decrypt`; otherwise the
candidate password must decrypt the verification envelope to
`VERIFICATION_STRING` (success clears the lockout), and any failure is
recorded via `recordFailedAttempt`. -/
def handleUnlock (project : Project) (password : List Nat) (now : Nat)
    (writeOk : Bool) (s : Store) : UnlockOutcome :=
  match project.mp_verify with
  | none => { verified := true, decryptCalled := false, store := clearLockout writeOk s }
  | some ct =>
    if ct.isEmpty then
      { verified := true, decryptCalled := false, store := clearLockout writeOk s }
    else
      match decrypt ct project.mp_iv project.mp_salt password with
      | .ok pt =>
          if pt = VERIFICATION_STRING then
            { verified := true, decryptCalled := true, store := clearLockout writeOk s }
          else
            { verified := false, decryptCalled := true,
              store := (recordFailedAttempt now writeOk s).2 }
      | .error _ =>
          { verified := false, decryptCalled := true,
            store := (recordFailedAttempt now writeOk s).2 }

/-- `handleSubmit` from `MasterPasswordModal`: an empty password or an
active lockout is rejected before `onSubmit` (= `handleUnlock`) is called. -/
def handleSubmit (project : Project) (password : List Nat) (lockedOut : Bool)
    (now : Nat) (writeOk : Bool) (s : Store) : Option UnlockOutcome :=
  if password.isEmpty || lockedOut then none
  else some (handleUnlock project password now writeOk s)

/-! ## Helper lemmas about decrypting an envelope produced by `encrypt` -/

/-- Decrypting an envelope produced by `encrypt` with a candidate password
succeeds with the original plaintext exactly when the password matches, and
otherwise fails with the opaque `decryptionFailed` error. -/
theorem decrypt_encrypt_eq (pt pw pw' salt iv : List Nat)
    (hpt : ∀ b ∈ pt, b < 256) (hpw : ∀ b ∈ pw, b < 256)
    (hsalt : ∀ b ∈ salt, b < 256) (hiv : ∀ b ∈ iv, b < 256) :
    decrypt (encrypt pt pw salt iv).ciphertext (encrypt pt pw salt iv).iv
        (encrypt pt pw salt iv).salt pw'
      = if pw' = pw then .ok pt else .error .decryptionFailed := by
  have hct : ∀ b ∈ aesGcmEncrypt (deriveKey pw salt) iv pt, b < 256 :=
    aesGcmEncrypt_bytes _ _ _ hpw hsalt hiv hpt
  simp only [encrypt, decrypt,
    base64ToBuffer_bufferToBase64 salt hsalt,
    base64ToBuffer_bufferToBase64 iv hiv,
    base64ToBuffer_bufferToBase64 _ hct]
  by_cases hp : pw' = pw
  · subst hp
    rw [aesGcmDecrypt_aesGcmEncrypt]
    simp
  · rw [aesGcmDecrypt_wrong _ _ _ _ _ (Or.inl (by simp [deriveKey, hp]))]
    simp [hp]

/-! ## Claim theorems -/

/-- C1: for every plaintext `P` and password `W`, decrypting the envelope
produced by `encrypt P W` — passing its `ciphertext`, `iv` and `salt` fields
together with the same password `W` to `decrypt` — returns exactly `P`. -/
theorem C1_decrypt_encrypt_roundtrip (P W salt iv : List Nat)
    (hP : ∀ b ∈ P, b < 256) (hW : ∀ b ∈ W, b < 256)
    (hsalt : ∀ b ∈ salt, b < 256) (hiv : ∀ b ∈ iv, b < 256) :
    decrypt (encrypt P W salt iv).ciphertext (encrypt P W salt iv).iv
        (encrypt P W salt iv).salt W = .ok P := by
  rw [decrypt_encrypt_eq P W W salt iv hP hW hsalt hiv]
  simp

theorem C1_witness :
    (∀ b ∈ [104, 105], b < 256) ∧ (∀ b ∈ [112, 119], b < 256)
    ∧ (∀ b ∈ [1, 2, 3], b < 256) ∧ (∀ b ∈ [9, 8], b < 256)
    ∧ decrypt (encrypt [104, 105] [112, 119] [1, 2, 3] [9, 8]).ciphertext
        (encrypt [104, 105] [112, 119] [1, 2, 3] [9, 8]).iv
        (encrypt [104, 105] [112, 119] [1, 2, 3] [9, 8]).salt [112, 119]
      = .ok [104, 105] :=
  ⟨by decide, by decide, by decide, by decide,
    C1_decrypt_encrypt_roundtrip [104, 105] [112, 119] [1, 2, 3] [9, 8]
      (by decide) (by decide) (by decide) (by decide)⟩

/-- C2: decryption failure is a single opaque condition.  With the wrong
password (`W1 ≠ W2`) decryption of a valid envelope fails with
`decryptionFailed`, and flipping any single byte of the envelope's raw
ciphertext (replacing byte `j` by a different byte `v`) makes decryption
fail with the same `decryptionFailed` for every password `Wx`; the two
causes produce identical errors. -/
theorem C2_decryption_failed_opaque (P W1 W2 Wx salt iv : List Nat)
    (hP : ∀ b ∈ P, b < 256) (hW1 : ∀ b ∈ W1, b < 256)
    (hsalt : ∀ b ∈ salt, b < 256) (hiv : ∀ b ∈ iv, b < 256)
    (j v : Nat) (hj : j < (aesGcmEncrypt (deriveKey W1 salt) iv P).length)
    (hv : v < 256) (hne : v ≠ (aesGcmEncrypt (deriveKey W1 salt) iv P).getD j 0)
    (hW : W1 ≠ W2) :
    decrypt (encrypt P W1 salt iv).ciphertext (encrypt P W1 salt iv).iv
        (encrypt P W1 salt iv).salt W2 = .error .decryptionFailed
    ∧ decrypt (bufferToBase64 ((aesGcmEncrypt (deriveKey W1 salt) iv P).set j v))
        (encrypt P W1 salt iv).iv (encrypt P W1 salt iv).salt Wx
      = .error .decryptionFailed := by
  constructor
  · rw [decrypt_encrypt_eq P W1 W2 salt iv hP hW1 hsalt hiv]
    simp [Ne.symm hW]
  · have hser : ∀ b ∈ serializeAead (deriveKey W1 salt) iv P, b < 256 :=
      serializeAead_bytes _ _ _ hW1 hsalt hiv hP
    have hflip : ∀ b ∈ (aesGcmEncrypt (deriveKey W1 salt) iv P).set j v, b < 256 := by
      intro b hb
      rcases List.mem_or_eq_of_mem_set hb with hb | rfl
      · exact aesGcmEncrypt_bytes _ _ _ hW1 hsalt hiv hP b hb
      · exact hv
    simp only [encrypt, decrypt,
      base64ToBuffer_bufferToBase64 salt hsalt,
      base64ToBuffer_bufferToBase64 iv hiv,
      base64ToBuffer_bufferToBase64 _ hflip,
      aesGcmDecrypt_flip (deriveKey W1 salt) (deriveKey Wx salt) iv iv P hser
        j v hj hv hne]

theorem C2_witness :
    (∀ b ∈ [72], b < 256) ∧ (∀ b ∈ [97], b < 256)
    ∧ (∀ b ∈ [1, 2], b < 256) ∧ (∀ b ∈ [3], b < 256)
    ∧ 0 < (aesGcmEncrypt (deriveKey [97] [1, 2]) [3] [72]).length
    ∧ 2 < 256
    ∧ 2 ≠ (aesGcmEncrypt (deriveKey [97] [1, 2]) [3] [72]).getD 0 0
    ∧ [97] ≠ [98]
    ∧ (decrypt (encrypt [72] [97] [1, 2] [3]).ciphertext (encrypt [72] [97] [1, 2] [3]).iv
        (encrypt [72] [97] [1, 2] [3]).salt [98] = .error .decryptionFailed
      ∧ decrypt (bufferToBase64 ((aesGcmEncrypt (deriveKey [97] [1, 2]) [3] [72]).set 0 2))
          (encrypt [72] [97] [1, 2] [3]).iv (encrypt [72] [97] [1, 2] [3]).salt [99]
        = .error .decryptionFailed) :=
  ⟨by decide, by decide, by decide, by decide, by decide, by decide, by decide, by decide,
    C2_decryption_failed_opaque [72] [97] [98] [99] [1, 2] [3]
      (by decide) (by decide) (by decide) (by decide) 0 2
      (by decide) (by decide) (by decide) (by decide)⟩

/-- C3: password verification returns `true` iff decryption of the stored
verification envelope succeeds and yields exactly `VERIFICATION_STRING`:
`verify (createVerification W) W = true`, and for `Wx ≠ W`
`verify (createVerification W) Wx = false` (returning, not raising). -/
theorem C3_verify_createVerification (W Wx salt iv : List Nat)
    (hW : ∀ b ∈ W, b < 256) (hsalt : ∀ b ∈ salt, b < 256)
    (hiv : ∀ b ∈ iv, b < 256) (hne : Wx ≠ W) :
    verify (createVerification W salt iv) W = true
    ∧ verify (createVerification W salt iv) Wx = false := by
  have hvs : ∀ b ∈ VERIFICATION_STRING, b < 256 := by decide
  constructor
  · simp only [verify, createVerification,
      decrypt_encrypt_eq VERIFICATION_STRING W W salt iv hvs hW hsalt hiv]
    simp
  · simp only [verify, createVerification,
      decrypt_encrypt_eq VERIFICATION_STRING W Wx salt iv hvs hW hsalt hiv]
    simp [hne]

theorem C3_witness :
    (∀ b ∈ [109, 112], b < 256) ∧ (∀ b ∈ [4, 5], b < 256) ∧ (∀ b ∈ [6], b < 256)
    ∧ [120] ≠ [109, 112]
    ∧ (verify (createVerification [109, 112] [4, 5] [6]) [109, 112] = true
      ∧ verify (createVerification [109, 112] [4, 5] [6]) [120] = false) :=
  ⟨by decide, by decide, by decide, by decide,
    C3_verify_createVerification [109, 112] [120] [4, 5] [6]
      (by decide) (by decide) (by decide) (by decide)⟩

/-- C8: `encrypt` returns exactly the sampled 16-byte salt and 12-byte
nonce, Base64-encoded, in the envelope's `salt` and `iv` fields, so two
calls whose sampled randomness differs yield different `salt` and different
`iv`. -/
theorem C8_encrypt_fresh_salt_iv (P W s1 s2 i1 i2 : List Nat)
    (hs1 : ∀ b ∈ s1, b < 256) (hs2 : ∀ b ∈ s2, b < 256)
    (hi1 : ∀ b ∈ i1, b < 256) (hi2 : ∀ b ∈ i2, b < 256)
    (_hl1 : s1.length = 16) (_hl2 : s2.length = 16)
    (_hm1 : i1.length = 12) (_hm2 : i2.length = 12)
    (hsne : s1 ≠ s2) (hine : i1 ≠ i2) :
    (encrypt P W s1 i1).salt = bufferToBase64 s1
    ∧ (encrypt P W s1 i1).iv = bufferToBase64 i1
    ∧ (encrypt P W s1 i1).salt ≠ (encrypt P W s2 i2).salt
    ∧ (encrypt P W s1 i1).iv ≠ (encrypt P W s2 i2).iv := by
  refine ⟨rfl, rfl, ?_, ?_⟩
  · exact fun h => hsne (bufferToBase64_injective s1 s2 hs1 hs2 h)
  · exact fun h => hine (bufferToBase64_injective i1 i2 hi1 hi2 h)

theorem C8_witness :
    (∀ b ∈ List.replicate 16 0, b < 256) ∧ (∀ b ∈ List.replicate 15 0 ++ [1], b < 256)
    ∧ (∀ b ∈ List.replicate 12 0, b < 256) ∧ (∀ b ∈ List.replicate 11 0 ++ [1], b < 256)
    ∧ (List.replicate 16 0).length = 16 ∧ (List.replicate 15 0 ++ [1]).length = 16
    ∧ (List.replicate 12 0).length = 12 ∧ (List.replicate 11 0 ++ [1]).length = 12
    ∧ List.replicate 16 0 ≠ List.replicate 15 0 ++ [1]
    ∧ List.replicate 12 0 ≠ List.replicate 11 0 ++ [1]
    ∧ ((encrypt [5] [6] (List.replicate 16 0) (List.replicate 12 0)).salt
        = bufferToBase64 (List.replicate 16 0)
      ∧ (encrypt [5] [6] (List.replicate 16 0) (List.replicate 12 0)).iv
        = bufferToBase64 (List.replicate 12 0)
      ∧ (encrypt [5] [6] (List.replicate 16 0) (List.replicate 12 0)).salt
        ≠ (encrypt [5] [6] (List.replicate 15 0 ++ [1]) (List.replicate 11 0 ++ [1])).salt
      ∧ (encrypt [5] [6] (List.replicate 16 0) (List.replicate 12 0)).iv
        ≠ (encrypt [5] [6] (List.replicate 15 0 ++ [1]) (List.replicate 11 0 ++ [1])).iv) :=
  ⟨by decide, by decide, by decide, by decide, by decide, by decide, by decide, by decide,
    by decide, by decide,
    C8_encrypt_fresh_salt_iv [5] [6] (List.replicate 16 0) (List.replicate 15 0 ++ [1])
      (List.replicate 12 0) (List.replicate 11 0 ++ [1])
      (by decide) (by decide) (by decide) (by decide) (by decide) (by decide)
      (by decide) (by decide) (by decide) (by decide)⟩

/-- C10: the module's Base64 codec round-trips — decoding the encoding of
any byte sequence yields exactly those bytes — so the salt, nonce and
ciphertext stored in an envelope decode back to the raw bytes produced at
encryption time. -/
theorem C10_base64_roundtrip (b P W salt iv : List Nat)
    (hb : ∀ x ∈ b, x < 256) (hP : ∀ x ∈ P, x < 256) (hW : ∀ x ∈ W, x < 256)
    (hsalt : ∀ x ∈ salt, x < 256) (hiv : ∀ x ∈ iv, x < 256) :
    base64ToBuffer (bufferToBase64 b) = some b
    ∧ base64ToBuffer (encrypt P W salt iv).salt = some salt
    ∧ base64ToBuffer (encrypt P W salt iv).iv = some iv
    ∧ base64ToBuffer (encrypt P W salt iv).ciphertext
      = some (aesGcmEncrypt (deriveKey W salt) iv P) := by
  refine ⟨base64ToBuffer_bufferToBase64 b hb,
    base64ToBuffer_bufferToBase64 salt hsalt,
    base64ToBuffer_bufferToBase64 iv hiv,
    base64ToBuffer_bufferToBase64 _ (aesGcmEncrypt_bytes _ _ _ hW hsalt hiv hP)⟩

theorem C10_witness :
    (∀ x ∈ [0, 127, 255], x < 256) ∧ (∀ x ∈ [10], x < 256) ∧ (∀ x ∈ [20], x < 256)
    ∧ (∀ x ∈ [30, 31], x < 256) ∧ (∀ x ∈ [40], x < 256)
    ∧ (base64ToBuffer (bufferToBase64 [0, 127, 255]) = some [0, 127, 255]
      ∧ base64ToBuffer (encrypt [10] [20] [30, 31] [40]).salt = some [30, 31]
      ∧ base64ToBuffer (encrypt [10] [20] [30, 31] [40]).iv = some [40]
      ∧ base64ToBuffer (encrypt [10] [20] [30, 31] [40]).ciphertext
        = some (aesGcmEncrypt (deriveKey [20] [30, 31]) [40] [10])) :=
  ⟨by decide, by decide, by decide, by decide, by decide,
    C10_base64_roundtrip [0, 127, 255] [10] [20] [30, 31] [40]
      (by decide) (by decide) (by decide) (by decide) (by decide)⟩

/-- C7 counterexample: the claim that a wrong-length salt yields a
`MalformedEnvelope` condition distinct from `DecryptionFailed` is false on
the code.  Decrypting a valid envelope after replacing its salt field with
the Base64 encoding of a 15-byte salt (structurally invalid: salts are 16
bytes) fails with the same `decryptionFailed` error used for a wrong
password, because `decrypt` performs no length validation. -/
theorem C7_counterexample :
    decrypt (encrypt [104, 105] [97] (List.replicate 16 0) (List.replicate 12 0)).ciphertext
        (encrypt [104, 105] [97] (List.replicate 16 0) (List.replicate 12 0)).iv
        (bufferToBase64 (List.replicate 15 0)) [97]
      = .error DecryptError.decryptionFailed
    ∧ (List.replicate 15 0).length ≠ 16 :=
  ⟨rfl, by decide⟩

/-- C7 (amended): for every password, `decrypt` on an envelope with a field
that is not valid Base64 fails with the `invalidCharacter` condition
(`atob`'s `InvalidCharacterError`, raised outside the `try`), which is
distinct from the `decryptionFailed` condition raised for a wrong password.
A wrong-length (but Base64-valid) salt or nonce is not detected
structurally: it flows into key derivation / decryption and surfaces as
`decryptionFailed`. -/
theorem C7_malformed_base64_distinct (ciphertext iv salt pw : List Nat)
    (h : base64ToBuffer salt = none ∨ base64ToBuffer iv = none ∨
      base64ToBuffer ciphertext = none) :
    decrypt ciphertext iv salt pw = .error .invalidCharacter
    ∧ DecryptError.invalidCharacter ≠ DecryptError.decryptionFailed := by
  refine ⟨?_, by decide⟩
  rcases h with h | h | h
  · simp [decrypt, h]
  · cases hs : base64ToBuffer salt with
    | none => simp [decrypt, hs]
    | some saltB => simp [decrypt, hs, h]
  · cases hs : base64ToBuffer salt with
    | none => simp [decrypt, hs]
    | some saltB =>
        cases hv : base64ToBuffer iv with
        | none => simp [decrypt, hs, hv]
        | some ivB => simp [decrypt, hs, hv, h]

theorem C7_witness :
    (base64ToBuffer [37] = none ∨ base64ToBuffer [65, 65] = none ∨
      base64ToBuffer [65, 65] = none)
    ∧ (decrypt [65, 65] [65, 65] [37] [97] = .error .invalidCharacter
      ∧ DecryptError.invalidCharacter ≠ DecryptError.decryptionFailed) :=
  ⟨by decide,
    C7_malformed_base64_distinct [65, 65] [65, 65] [37] [97] (by decide)⟩

/-- C4: from a fresh store, the first two `recordFailedAttempt` calls return
`locked = false` with attempts 1 and 2; the third returns `locked = true`
and sets `lockedUntil` to `now + 10800000` (3 hours).  `isLockedOut` before
`lockedUntil` reports locked with `remainingMs = lockedUntil - now`;
`isLockedOut` after `lockedUntil` reports `(false, 0)`, removes the stored
record, and a subsequent read sees the full `MAX_ATTEMPTS` again. -/
theorem C4_lockout_scenario (n1 n2 n3 t ta : Nat)
    (hbefore : t < n3 + LOCKOUT_DURATION_MS)
    (hafter : n3 + LOCKOUT_DURATION_MS ≤ ta) :
    (recordFailedAttempt n1 true Store.absent).1 = (1, false)
    ∧ (recordFailedAttempt n2 true
        (recordFailedAttempt n1 true Store.absent).2).1 = (2, false)
    ∧ (recordFailedAttempt n3 true (recordFailedAttempt n2 true
        (recordFailedAttempt n1 true Store.absent).2).2).1 = (3, true)
    ∧ getLockoutState (recordFailedAttempt n3 true (recordFailedAttempt n2 true
        (recordFailedAttempt n1 true Store.absent).2).2).2
      = some (LockoutState.mk 3 (some (n3 + LOCKOUT_DURATION_MS)))
    ∧ (isLockedOut t true (recordFailedAttempt n3 true (recordFailedAttempt n2 true
        (recordFailedAttempt n1 true Store.absent).2).2).2).1
      = (true, n3 + LOCKOUT_DURATION_MS - t)
    ∧ (isLockedOut ta true (recordFailedAttempt n3 true (recordFailedAttempt n2 true
        (recordFailedAttempt n1 true Store.absent).2).2).2)
      = ((false, 0), Store.absent)
    ∧ getRemainingAttempts ta Store.absent = MAX_ATTEMPTS := by
  have hD : LOCKOUT_DURATION_MS = 10800000 := by decide
  have hs1 : (recordFailedAttempt n1 true Store.absent).2
      = Store.value (LockoutState.mk 1 none) := by
    simp [recordFailedAttempt, getLockoutState, saveLockoutState, MAX_ATTEMPTS]
  have hs2 : (recordFailedAttempt n2 true (Store.value (LockoutState.mk 1 none))).2
      = Store.value (LockoutState.mk 2 none) := by
    simp [recordFailedAttempt, getLockoutState, saveLockoutState, MAX_ATTEMPTS]
  have hs3 : (recordFailedAttempt n3 true (Store.value (LockoutState.mk 2 none))).2
      = Store.value (LockoutState.mk 3 (some (n3 + LOCKOUT_DURATION_MS))) := by
    simp [recordFailedAttempt, getLockoutState, saveLockoutState, MAX_ATTEMPTS]
  refine ⟨?_, ?_, ?_, ?_, ?_, ?_, ?_⟩
  · simp [recordFailedAttempt, getLockoutState, MAX_ATTEMPTS]
  · rw [hs1]
    simp [recordFailedAttempt, getLockoutState, MAX_ATTEMPTS]
  · rw [hs1, hs2]
    simp [recordFailedAttempt, getLockoutState, MAX_ATTEMPTS]
  · rw [hs1, hs2, hs3]
    simp [getLockoutState]
  · rw [hs1, hs2, hs3]
    simp only [isLockedOut, getLockoutState]
    rw [if_neg (by omega), if_neg (by omega)]
  · rw [hs1, hs2, hs3]
    simp only [isLockedOut, getLockoutState, clearLockout]
    rw [if_neg (by omega), if_pos (by omega)]
    simp
  · simp [getRemainingAttempts, getLockoutState]

theorem C4_witness :
    3 < 2 + LOCKOUT_DURATION_MS
    ∧ 2 + LOCKOUT_DURATION_MS ≤ 10800002
    ∧ ((recordFailedAttempt 0 true Store.absent).1 = (1, false)
      ∧ (recordFailedAttempt 1 true
          (recordFailedAttempt 0 true Store.absent).2).1 = (2, false)
      ∧ (recordFailedAttempt 2 true (recordFailedAttempt 1 true
          (recordFailedAttempt 0 true Store.absent).2).2).1 = (3, true)
      ∧ getLockoutState (recordFailedAttempt 2 true (recordFailedAttempt 1 true
          (recordFailedAttempt 0 true Store.absent).2).2).2
        = some (LockoutState.mk 3 (some (2 + LOCKOUT_DURATION_MS)))
      ∧ (isLockedOut 3 true (recordFailedAttempt 2 true (recordFailedAttempt 1 true
          (recordFailedAttempt 0 true Store.absent).2).2).2).1
        = (true, 2 + LOCKOUT_DURATION_MS - 3)
      ∧ (isLockedOut 10800002 true (recordFailedAttempt 2 true (recordFailedAttempt 1 true
          (recordFailedAttempt 0 true Store.absent).2).2).2)
        = ((false, 0), Store.absent)
      ∧ getRemainingAttempts 10800002 Store.absent = MAX_ATTEMPTS) :=
  ⟨by decide, by decide, C4_lockout_scenario 0 1 2 3 10800002 (by decide) (by decide)⟩

/-- C5 counterexample: the claim that `lockedUntil` is assigned exactly on
the `recordFailedAttempt` call at which `attempts` reaches 3, and on no
other failure count, is false on the code.  A fourth consecutive failure
while still locked (three failures at time 0, then one at time 1) has
`attempts = 4 ≠ 3` yet assigns a new `lockedUntil` (10800001, replacing
10800000). -/
theorem C5_counterexample :
    (recordFailedAttempt 1 true (recordFailedAttempt 0 true (recordFailedAttempt 0 true
        (recordFailedAttempt 0 true Store.absent).2).2).2).1.1 = 4
    ∧ (4 : Nat) ≠ MAX_ATTEMPTS
    ∧ lockedUntilOf (recordFailedAttempt 0 true (recordFailedAttempt 0 true
        (recordFailedAttempt 0 true Store.absent).2).2).2 = some 10800000
    ∧ lockedUntilOf (recordFailedAttempt 1 true (recordFailedAttempt 0 true
        (recordFailedAttempt 0 true
          (recordFailedAttempt 0 true Store.absent).2).2).2).2 = some 10800001 := by
  decide

/-- C5 (amended): `lockedUntil` is assigned exactly on `recordFailedAttempt`
calls whose updated failure count is at least the threshold 3 (so also on
later failures while a lockout is active), with value
`now + LOCKOUT_DURATION_MS`; it is never assigned by any other operation —
`isLockedOut` and `clearLockout` only leave the record unchanged or remove
it, and a `recordFailedAttempt` below the threshold only carries over or
clears the previous `lockedUntil`. -/
theorem C5_lockedUntil_assignment (now : Nat) (w : Bool) (s : Store) :
    ((isLockedOut now w s).2 = s ∨ (isLockedOut now w s).2 = Store.absent)
    ∧ (clearLockout w s = s ∨ clearLockout w s = Store.absent)
    ∧ ((recordFailedAttempt now true s).1.2 = true →
        MAX_ATTEMPTS ≤ (recordFailedAttempt now true s).1.1
        ∧ lockedUntilOf (recordFailedAttempt now true s).2
          = some (now + LOCKOUT_DURATION_MS))
    ∧ ((recordFailedAttempt now true s).1.2 = false →
        (recordFailedAttempt now true s).1.1 < MAX_ATTEMPTS
        ∧ (lockedUntilOf (recordFailedAttempt now true s).2 = lockedUntilOf s
          ∨ lockedUntilOf (recordFailedAttempt now true s).2 = none)) := by
  refine ⟨?_, ?_, ?_, ?_⟩
  · -- isLockedOut leaves the record unchanged or removes it
    cases s with
    | absent => exact Or.inl rfl
    | failure => exact Or.inl rfl
    | value st =>
        rcases st with ⟨a, lu⟩
        cases lu with
        | none => exact Or.inl rfl
        | some l =>
            by_cases h0 : l = 0
            · exact Or.inl (by simp [isLockedOut, getLockoutState, h0])
            · by_cases hle : l ≤ now
              · cases w with
                | false =>
                    exact Or.inl (by simp [isLockedOut, getLockoutState, clearLockout, h0, hle])
                | true =>
                    exact Or.inr (by simp [isLockedOut, getLockoutState, clearLockout, h0, hle])
              · exact Or.inl (by simp [isLockedOut, getLockoutState, h0, hle])
  · cases w with
    | false => exact Or.inl rfl
    | true => exact Or.inr rfl
  · -- a record call that reports locked has crossed the threshold and set the timer
    intro hlocked
    cases s with
    | absent =>
        simp [recordFailedAttempt, getLockoutState, MAX_ATTEMPTS] at hlocked
    | failure =>
        simp [recordFailedAttempt, getLockoutState, MAX_ATTEMPTS] at hlocked
    | value st =>
        rcases st with ⟨a, lu⟩
        cases lu with
        | none =>
            by_cases ha : a + 1 ≥ MAX_ATTEMPTS
            · constructor
              · simpa [recordFailedAttempt, getLockoutState] using ha
              · simp [recordFailedAttempt, getLockoutState, saveLockoutState,
                  lockedUntilOf, ha]
            · simp [recordFailedAttempt, getLockoutState, ha] at hlocked
        | some l =>
            by_cases hreset : l ≠ 0 ∧ l ≤ now
            · simp [recordFailedAttempt, getLockoutState, hreset, MAX_ATTEMPTS] at hlocked
            · by_cases ha : a + 1 ≥ MAX_ATTEMPTS
              · constructor
                · simpa [recordFailedAttempt, getLockoutState, hreset] using ha
                · simp [recordFailedAttempt, getLockoutState, saveLockoutState,
                    lockedUntilOf, hreset, ha]
              · simp [recordFailedAttempt, getLockoutState, hreset, ha] at hlocked
  · -- a record call below the threshold never sets lockedUntil
    intro hopen
    cases s with
    | absent =>
        refine ⟨by simp [recordFailedAttempt, getLockoutState, MAX_ATTEMPTS], Or.inr ?_⟩
        simp [recordFailedAttempt, getLockoutState, saveLockoutState, lockedUntilOf,
          MAX_ATTEMPTS]
    | failure =>
        refine ⟨by simp [recordFailedAttempt, getLockoutState, MAX_ATTEMPTS], Or.inr ?_⟩
        simp [recordFailedAttempt, getLockoutState, saveLockoutState, lockedUntilOf,
          MAX_ATTEMPTS]
    | value st =>
        rcases st with ⟨a, lu⟩
        cases lu with
        | none =>
            by_cases ha : a + 1 ≥ MAX_ATTEMPTS
            · simp [recordFailedAttempt, getLockoutState, ha] at hopen
            · refine ⟨by simpa [recordFailedAttempt, getLockoutState] using ha, Or.inl ?_⟩
              simp [recordFailedAttempt, getLockoutState, saveLockoutState,
                lockedUntilOf, ha]
        | some l =>
            by_cases hreset : l ≠ 0 ∧ l ≤ now
            · refine ⟨by simp [recordFailedAttempt, getLockoutState, hreset, MAX_ATTEMPTS],
                Or.inr ?_⟩
              simp [recordFailedAttempt, getLockoutState, saveLockoutState,
                lockedUntilOf, hreset, MAX_ATTEMPTS]
            · by_cases ha : a + 1 ≥ MAX_ATTEMPTS
              · simp [recordFailedAttempt, getLockoutState, hreset, ha] at hopen
              · refine ⟨by simpa [recordFailedAttempt, getLockoutState, hreset] using ha,
                  Or.inl ?_⟩
                simp [recordFailedAttempt, getLockoutState, saveLockoutState,
                  lockedUntilOf, hreset, ha]

theorem C5_witness :
    ((isLockedOut 7 true (Store.value (LockoutState.mk 2 none))).2
        = Store.value (LockoutState.mk 2 none)
      ∨ (isLockedOut 7 true (Store.value (LockoutState.mk 2 none))).2 = Store.absent)
    ∧ (clearLockout true (Store.value (LockoutState.mk 2 none))
        = Store.value (LockoutState.mk 2 none)
      ∨ clearLockout true (Store.value (LockoutState.mk 2 none)) = Store.absent)
    ∧ ((recordFailedAttempt 7 true (Store.value (LockoutState.mk 2 none))).1.2 = true →
        MAX_ATTEMPTS ≤ (recordFailedAttempt 7 true (Store.value (LockoutState.mk 2 none))).1.1
        ∧ lockedUntilOf (recordFailedAttempt 7 true (Store.value (LockoutState.mk 2 none))).2
          = some (7 + LOCKOUT_DURATION_MS))
    ∧ ((recordFailedAttempt 7 true (Store.value (LockoutState.mk 2 none))).1.2 = false →
        (recordFailedAttempt 7 true (Store.value (LockoutState.mk 2 none))).1.1 < MAX_ATTEMPTS
        ∧ (lockedUntilOf (recordFailedAttempt 7 true (Store.value (LockoutState.mk 2 none))).2
            = lockedUntilOf (Store.value (LockoutState.mk 2 none))
          ∨ lockedUntilOf
              (recordFailedAttempt 7 true (Store.value (LockoutState.mk 2 none))).2
            = none)) :=
  C5_lockedUntil_assignment 7 true (Store.value (LockoutState.mk 2 none))

/-- C6: for a project whose stored record has no verification envelope
(`mp_verify` absent — legacy data), submitting any non-empty candidate
password (with no active lockout) is accepted as verified without calling
`decrypt`, and the lockout record for the project is cleared. -/
theorem C6_legacy_accepts_any_password (p : Project) (password : List Nat)
    (now : Nat) (s : Store) (hlegacy : p.mp_verify = none) (hpw : password ≠ []) :
    handleSubmit p password false now true s
      = some { verified := true, decryptCalled := false, store := Store.absent } := by
  have hne : password.isEmpty = false := by
    cases password with
    | nil => exact absurd rfl hpw
    | cons b t => rfl
  simp [handleSubmit, hne, handleUnlock, hlegacy, clearLockout]

theorem C6_witness :
    (Project.mk none [] []).mp_verify = none
    ∧ [97] ≠ ([] : List Nat)
    ∧ handleSubmit (Project.mk none [] []) [97] false 5 true
        (Store.value (LockoutState.mk 2 none))
      = some { verified := true, decryptCalled := false, store := Store.absent } :=
  ⟨rfl, by decide,
    C6_legacy_accepts_any_password (Project.mk none [] []) [97] 5
      (Store.value (LockoutState.mk 2 none)) rfl (by decide)⟩

/-- C9: no lockout-guard operation propagates a storage failure.  With an
erroring or unreadable store (`Store.failure`), every operation returns
normally and behaves as the unlocked `Open` state: `isLockedOut` reports
`(false, 0)` (leaving the store as is), `getRemainingAttempts` returns the
full `MAX_ATTEMPTS`, and `recordFailedAttempt` counts from a fresh state.
Write failures are likewise absorbed: the values returned by `isLockedOut`
and `recordFailedAttempt` do not depend on whether the write succeeds, and
a failed `clearLockout` simply leaves the stored record unchanged. -/
theorem C9_storage_failure_absorbed (now : Nat) (w : Bool) (s : Store) :
    isLockedOut now w Store.failure = ((false, 0), Store.failure)
    ∧ getRemainingAttempts now Store.failure = MAX_ATTEMPTS
    ∧ (recordFailedAttempt now w Store.failure).1 = (1, false)
    ∧ (isLockedOut now false s).1 = (isLockedOut now true s).1
    ∧ (recordFailedAttempt now false s).1 = (recordFailedAttempt now true s).1
    ∧ clearLockout false s = s := by
  refine ⟨rfl, rfl, rfl, ?_, rfl, rfl⟩
  cases s with
  | absent => rfl
  | failure => rfl
  | value st =>
      rcases st with ⟨a, lu⟩
      cases lu with
      | none => rfl
      | some l =>
          by_cases h0 : l = 0
          · simp [isLockedOut, getLockoutState, h0]
          · by_cases hle : l ≤ now
            · simp [isLockedOut, getLockoutState, h0, hle]
            · simp [isLockedOut, getLockoutState, h0, hle]

theorem C9_witness :
    isLockedOut 4 true Store.failure = ((false, 0), Store.failure)
    ∧ getRemainingAttempts 4 Store.failure = MAX_ATTEMPTS
    ∧ (recordFailedAttempt 4 true Store.failure).1 = (1, false)
    ∧ (isLockedOut 4 false (Store.value (LockoutState.mk 1 (some 2)))).1
      = (isLockedOut 4 true (Store.value (LockoutState.mk 1 (some 2)))).1
    ∧ (recordFailedAttempt 4 false (Store.value (LockoutState.mk 1 (some 2)))).1
      = (recordFailedAttempt 4 true (Store.value (LockoutState.mk 1 (some 2)))).1
    ∧ clearLockout false (Store.value (LockoutState.mk 1 (some 2)))
      = Store.value (LockoutState.mk 1 (some 2)) :=
  C9_storage_failure_absorbed 4 true (Store.value (LockoutState.mk 1 (some 2)))

end DotEnv
